import Mathlib

/-!
Verification of the ZKAstro on-chain core against its specification.

The repository holds three Rust (Arbitrum Stylus) source files:
  * `src/contracts/src/farcaster_predictions.rs` — the `FarcasterPredictions`
    contract (owner registration, per-date prediction storage, ratings and
    per-owner aggregates);
  * `src/contracts/ChartRegistry.rs` — the `ChartRegistry` contract
    (chart commitments, owner index, verification flag);
  * `src/contracts/src/poseidon.rs` — the proof-verification helpers
    `verify_zk_proof` and `verify_zk_proof_simple`.

Modelling decisions (shallow embedding):
  * EVM storage mappings are modelled as association lists with a
    default value for absent keys (`mget`/`mset`); this matches EVM
    storage exactly: finitely many slots are ever written, every other
    slot reads as the zero value.
  * `Address` and `bytes32` values are modelled as `Nat`, with `0` as the
    distinguished zero value (`Address::ZERO`, `B32::ZERO`).
  * `U256` counters and sums are modelled as exact natural numbers.  The
    contract increments them by at most 5 per call, so the 2^256 wrap of
    `U256` addition is unreachable in any feasible execution and is not
    modelled.  The single `U256` subtraction (`rating_sum - existing_rating`
    in `rate_prediction`) is modelled by truncated `Nat` subtraction; the
    no-underflow invariant proved below shows the subtrahend never exceeds
    the minuend, where truncated and wrapping subtraction agree.
  * `msg_sender` and `block.timestamp` are host collaborators; they enter
    the model as explicit arguments (`user`, `now`) of each operation.
  * The byte-string error tags of `FarcasterPredictions`
    (`b"InvalidCommitment"` etc.) are modelled as `String` constants with
    the same spelling; the `ChartRegistry` error enum is mirrored as an
    inductive type.
  * Rust `&str` values in the proof-verification helpers are modelled by
    their UTF-8 byte sequences (`List Nat`), which is what every operation
    in that file (`as_bytes`, `len`, emptiness, equality) acts on.
-/

/-- Read a key from an association-list map, returning `d` when absent.
Models `mapping(...)` reads in EVM storage (absent slot = zero value). -/
def mget {K V : Type} [DecidableEq K] (m : List (K × V)) (k : K) (d : V) : V :=
  match m with
  | [] => d
  | (k', v) :: m' => if k = k' then v else mget m' k d

/-- Write a key in an association-list map (models a mapping `set`). -/
def mset {K V : Type} [DecidableEq K] (m : List (K × V)) (k : K) (v : V) :
    List (K × V) :=
  (k, v) :: m.filter (fun p => if p.1 = k then false else true)

/-- The keys of an association-list map. -/
def mkeys {K V : Type} (m : List (K × V)) : List K :=
  m.map Prod.fst

/-- Storage of the `FarcasterPredictions` contract
(`sol_storage!` block, farcaster_predictions.rs lines 26-49).
Addresses and `bytes32`/`uint256` values are naturals; the nested
`mapping(address => mapping(uint256 => _))` tables are keyed by the
pair (user, date). -/
structure FPState where
  user_commitments : List (Nat × Nat)
  user_has_data : List (Nat × Bool)
  predictions : List ((Nat × Nat) × Nat)
  prediction_exists : List ((Nat × Nat) × Bool)
  ratings : List ((Nat × Nat) × Nat)
  total_predictions : List (Nat × Nat)
  total_ratings : List (Nat × Nat)
  rating_sum : List (Nat × Nat)
  total_users : Nat
  global_predictions : Nat
deriving Repr

/-- The all-empty initial storage of `FarcasterPredictions`. -/
def fpInit : FPState :=
  ⟨[], [], [], [], [], [], [], [], 0, 0⟩

/-- `register_user` (farcaster_predictions.rs lines 58-82).
`user` is `msg_sender()`. -/
def register_user (s : FPState) (user commitment : Nat) :
    Except String Unit × FPState :=
  if commitment = 0 then (.error "InvalidCommitment", s)
  else if mget s.user_has_data user false then (.error "UserAlreadyRegistered", s)
  else
    (.ok (), { s with
      user_commitments := mset s.user_commitments user commitment,
      user_has_data := mset s.user_has_data user true,
      total_users := s.total_users + 1 })

/-- `store_prediction` (farcaster_predictions.rs lines 89-123). -/
def store_prediction (s : FPState) (user date prediction_hash : Nat) :
    Except String Unit × FPState :=
  if !(mget s.user_has_data user false) then (.error "UserNotRegistered", s)
  else if prediction_hash = 0 then (.error "InvalidPredictionHash", s)
  else if mget s.prediction_exists (user, date) false then
    (.error "PredictionAlreadyExists", s)
  else
    (.ok (), { s with
      predictions := mset s.predictions (user, date) prediction_hash,
      prediction_exists := mset s.prediction_exists (user, date) true,
      total_predictions :=
        mset s.total_predictions user (mget s.total_predictions user 0 + 1),
      global_predictions := s.global_predictions + 1 })

/-- `rate_prediction` (farcaster_predictions.rs lines 130-169).
`rating` is the `u8` argument; the `> 5` guard keeps every stored value
in `[0,5]`.  The source's local `existing_rating` (the previously stored
rating, read before the write) is inlined: both of its uses read the
pre-state table. -/
def rate_prediction (s : FPState) (user date rating : Nat) :
    Except String Unit × FPState :=
  if rating > 5 then (.error "InvalidRating", s)
  else if !(mget s.prediction_exists (user, date) false) then
    (.error "PredictionNotFound", s)
  else
    if mget s.ratings (user, date) 0 = 0 then
      (.ok (), { s with
        ratings := mset s.ratings (user, date) rating,
        total_ratings :=
          mset s.total_ratings user (mget s.total_ratings user 0 + 1),
        rating_sum :=
          mset s.rating_sum user (mget s.rating_sum user 0 + rating) })
    else
      (.ok (), { s with
        ratings := mset s.ratings (user, date) rating,
        rating_sum :=
          mset s.rating_sum user
            (mget s.rating_sum user 0 - mget s.ratings (user, date) 0 + rating) })

/-- One mutating call of `FarcasterPredictions`, with the host-supplied
caller identity as first field. -/
inductive FPOp where
  | reg (user commitment : Nat)
  | store (user date hash : Nat)
  | rate (user date rating : Nat)
deriving Repr, DecidableEq

/-- State after one `FarcasterPredictions` call (failed calls return the
state unchanged, as every error path does in the source). -/
def fpApply (s : FPState) : FPOp → FPState
  | .reg user c => (register_user s user c).2
  | .store user d h => (store_prediction s user d h).2
  | .rate user d v => (rate_prediction s user d v).2

/-- State after a sequence of `FarcasterPredictions` calls.  A state is
reachable exactly when it is `fpRun fpInit tr` for some trace `tr`. -/
def fpRun (s : FPState) : List FPOp → FPState
  | [] => s
  | op :: tr => fpRun (fpApply s op) tr

/-- `true` when `op`, called in state `s`, is a successful
`register_user` call by `user`. -/
def regOwnerSuccessFor (s : FPState) (user : Nat) : FPOp -> Bool
  | .reg u c => u = user && (register_user s u c).1.isOk
  | _ => false

/-- `true` when the trace contains no successful `register_user` call by
`user` (starting from state `s`): the owner "never registered". -/
def neverRegOwnerIn (s : FPState) (tr : List FPOp) (user : Nat) : Bool :=
  match tr with
  | [] => true
  | op :: tr' =>
    !(regOwnerSuccessFor s user op) && neverRegOwnerIn (fpApply s op) tr' user

/-- Repeatedly `rate_prediction` the same (user, date) key with the
listed values, in order. -/
def rateSeq (s : FPState) (user date : Nat) : List Nat → FPState
  | [] => s
  | v :: vs => rateSeq (rate_prediction s user date v).2 user date vs

/-- Sum of the stored ratings of owner `u` over all (owner, date) keys of
the ratings table. -/
def sumFor (m : List ((Nat × Nat) × Nat)) (u : Nat) : Nat :=
  match m with
  | [] => 0
  | (k, v) :: m' => (if k.1 = u then v else 0) + sumFor m' u

/-- The rating-aggregation invariant of the spec: the ratings table has
no duplicate keys, and each owner's stored `rating_sum` equals the sum of
the current rating values recorded for that owner. -/
def FPRatingInv (s : FPState) : Prop :=
  (mkeys s.ratings).Nodup ∧
  ∀ u, mget s.rating_sum u 0 = sumFor s.ratings u

/-- One record of the `charts` mapping of `ChartRegistry`
(ChartRegistry.rs lines 22-29). -/
structure ChartCommitment where
  chart_hash : Nat
  user : Nat
  timestamp : Nat
  zk_verified : Bool
  chart_id : String
deriving Repr, DecidableEq

/-- The zero record an absent chart id reads as (every field is the EVM
zero value). -/
def defaultChart : ChartCommitment :=
  ⟨0, 0, 0, false, ""⟩

/-- The error enum of `ChartRegistry` (ChartRegistry.rs lines 46-52). -/
inductive ChartRegistryError where
  | chartAlreadyExists
  | invalidChartHash
  | invalidUserAddress
  | chartDoesNotExist
deriving Repr, DecidableEq

/-- Storage of `ChartRegistry` (ChartRegistry.rs lines 32-43). -/
structure CRState where
  charts : List (String × ChartCommitment)
  user_charts : List (Nat × List String)
  total_charts : Nat
deriving Repr, DecidableEq

/-- The all-empty initial storage of `ChartRegistry`. -/
def crInit : CRState :=
  ⟨[], [], 0⟩

/-- `register_chart` (ChartRegistry.rs lines 84-134).  `now` is the host
clock value `block::timestamp()`. -/
def register_chart (s : CRState) (chart_id : String) (chart_hash user : Nat)
    (zk_verified : Bool) (now : Nat) : Except ChartRegistryError Unit × CRState :=
  if (mget s.charts chart_id defaultChart).timestamp ≠ 0 then
    (.error .chartAlreadyExists, s)
  else if chart_hash = 0 then (.error .invalidChartHash, s)
  else if user = 0 then (.error .invalidUserAddress, s)
  else
    (.ok (), { s with
      charts := mset s.charts chart_id ⟨chart_hash, user, now, zk_verified, chart_id⟩,
      user_charts :=
        mset s.user_charts user (mget s.user_charts user [] ++ [chart_id]),
      total_charts := s.total_charts + 1 })

/-- `verify_chart` (ChartRegistry.rs lines 144-153): pure read comparing
the stored hash (the zero record when absent) with the supplied hash. -/
def verify_chart (s : CRState) (chart_id : String) (chart_hash : Nat) : Bool :=
  (mget s.charts chart_id defaultChart).chart_hash == chart_hash

/-- `mark_as_verified` (ChartRegistry.rs lines 204-227): sets only the
`zk_verified` field of an existing record. -/
def mark_as_verified (s : CRState) (chart_id : String) :
    Except ChartRegistryError Unit × CRState :=
  if (mget s.charts chart_id defaultChart).timestamp = 0 then
    (.error .chartDoesNotExist, s)
  else
    (.ok (), { s with
      charts := mset s.charts chart_id
        { mget s.charts chart_id defaultChart with zk_verified := true } })

/-- One mutating call of `ChartRegistry` (`init` is public and included;
it only resets the chart counter). -/
inductive CROp where
  | initOp
  | register (chart_id : String) (chart_hash user : Nat) (zk : Bool) (now : Nat)
  | mark (chart_id : String)
deriving Repr, DecidableEq

/-- State after one `ChartRegistry` call. -/
def crApply (s : CRState) : CROp → CRState
  | .initOp => { s with total_charts := 0 }
  | .register id h u zk now => (register_chart s id h u zk now).2
  | .mark id => (mark_as_verified s id).2

/-- State after a sequence of `ChartRegistry` calls. -/
def crRun (s : CRState) : List CROp → CRState
  | [] => s
  | op :: tr => crRun (crApply s op) tr

/-- A call made under a well-behaved host: a real chain's
`block.timestamp` is never zero, so the zero-timestamp "absent" sentinel
of the source cannot collide with a live record. -/
def goodOp : CROp → Bool
  | .register _ _ _ _ now => now != 0
  | _ => true

/-- Every call of the trace was made under a well-behaved host clock. -/
def goodTrace (tr : List CROp) : Bool :=
  tr.all goodOp

/-- `true` when `op`, called in state `s`, is a successful
`register_chart` call for `id`. -/
def regChartSuccessFor (s : CRState) (id : String) : CROp -> Bool
  | .register id' h u zk now => id' = id && (register_chart s id' h u zk now).1.isOk
  | _ => false

/-- `true` when the trace contains no successful `register_chart` call
for `id` (starting from state `s`): the chart id "was never registered". -/
def neverRegisteredIn (s : CRState) (tr : List CROp) (id : String) : Bool :=
  match tr with
  | [] => true
  | op :: tr' =>
    !(regChartSuccessFor s id op) && neverRegisteredIn (crApply s op) tr' id

/-- One lowercase hex digit (poseidon.rs relies on `hex::encode`, whose
output alphabet is `0-9a-f`). -/
def hexDigit (n : Nat) : Nat :=
  if n < 10 then 48 + n else 87 + n

/-- Lowercase hex encoding of a byte sequence, as its ASCII byte
sequence (`hex::encode`, high nibble first). -/
def hexEncode : List Nat → List Nat
  | [] => []
  | b :: bs => hexDigit (b / 16 % 16) :: hexDigit (b % 16) :: hexEncode bs

/-- `u64::to_le_bytes`: the eight little-endian bytes of a 64-bit value. -/
def u64ToLeBytes (v : Nat) : List Nat :=
  [v % 256, v / 256 % 256, v / 256 ^ 2 % 256, v / 256 ^ 3 % 256,
   v / 256 ^ 4 % 256, v / 256 ^ 5 % 256, v / 256 ^ 6 % 256, v / 256 ^ 7 % 256]

/-- `u64_array_to_bytes` (poseidon.rs lines 30-36): little-endian byte
concatenation of the position values. -/
def u64_array_to_bytes : List Nat → List Nat
  | [] => []
  | v :: vs => u64ToLeBytes v ++ u64_array_to_bytes vs

/-- `verify_zk_proof` (poseidon.rs lines 47-84).  Strings are modelled by
their UTF-8 byte sequences; the source's locals `challenge_hash`,
`challenge_hex` and `expected_proof` are inlined.  Modelled from the spec: the HashEngine
(`tiny_keccak`'s Keccak-256, an external crate, not part of this
repository's sources) is abstracted as an explicit hash-function
parameter `keccak256`; the source's engine always returns 32 bytes. -/
def verify_zk_proof (keccak256 : List Nat → List Nat)
    (commitment proof nonce : List Nat) (position_values : List Nat) : Bool :=
  if commitment.isEmpty || proof.isEmpty || nonce.isEmpty then false
  else if position_values.isEmpty then false
  else
    hexEncode (keccak256 (commitment ++ nonce ++
        hexEncode (keccak256 (commitment ++ u64_array_to_bytes position_values))))
      == proof

/-- `verify_zk_proof_simple` (poseidon.rs lines 88-120).  Rust `str::len`
is the UTF-8 byte length, which is the length of the modelling byte
sequence. -/
def verify_zk_proof_simple (commitment proof nonce : List Nat)
    (position_values : List Nat) : Bool :=
  if commitment.length < 32 then false
  else if proof.length < 32 then false
  else if nonce.length < 16 then false
  else if position_values.length < 7 then false
  else position_values.all (fun pos => decide (pos ≤ 36000))

/-! ## Map lemmas -/

theorem mget_nil {K V : Type} [DecidableEq K] (k : K) (d : V) :
    mget ([] : List (K × V)) k d = d := rfl

theorem mget_cons {K V : Type} [DecidableEq K] (a : K × V) (m : List (K × V))
    (k : K) (d : V) :
    mget (a :: m) k d = if k = a.1 then a.2 else mget m k d := by
  obtain ⟨a1, a2⟩ := a
  rfl

theorem mget_mset_self {K V : Type} [DecidableEq K] (m : List (K × V)) (k : K)
    (v d : V) : mget (mset m k v) k d = v := by
  simp [mset, mget_cons]

theorem mget_filter_ne {K V : Type} [DecidableEq K] (m : List (K × V))
    (k k' : K) (d : V) (h : k' ≠ k) :
    mget (m.filter fun p => if p.1 = k then false else true) k' d = mget m k' d := by
  induction m with
  | nil => rfl
  | cons a m ih =>
    rw [List.filter_cons]
    by_cases hak : a.1 = k
    · rw [if_neg (by simp [hak]), ih, mget_cons,
        if_neg (fun hk : k' = a.1 => h (hak ▸ hk))]
    · rw [if_pos (by simp [hak]), mget_cons, mget_cons, ih]

theorem mget_mset_ne {K V : Type} [DecidableEq K] (m : List (K × V))
    (k k' : K) (v d : V) (h : k' ≠ k) :
    mget (mset m k v) k' d = mget m k' d := by
  rw [mset, mget_cons, if_neg h, mget_filter_ne m k k' d h]

theorem mkeys_mset_nodup {K V : Type} [DecidableEq K] (m : List (K × V))
    (k : K) (v : V) (h : (mkeys m).Nodup) : (mkeys (mset m k v)).Nodup := by
  unfold mkeys mset
  rw [List.map_cons]
  refine List.nodup_cons.mpr ⟨?_, ?_⟩
  · intro hk
    obtain ⟨p, hp, hpk⟩ := List.mem_map.mp hk
    have hfp := List.of_mem_filter hp
    rw [hpk] at hfp
    simp at hfp
  · exact List.Nodup.sublist ((List.filter_sublist m).map Prod.fst) h

/-! ## Rating-sum lemmas -/

theorem sumFor_cons (a : (Nat × Nat) × Nat) (m : List ((Nat × Nat) × Nat))
    (u : Nat) :
    sumFor (a :: m) u = (if a.1.1 = u then a.2 else 0) + sumFor m u := by
  obtain ⟨⟨a1, a2⟩, av⟩ := a
  rfl

theorem sumFor_filter_erase (m : List ((Nat × Nat) × Nat)) (k : Nat × Nat)
    (u : Nat) (hnd : (mkeys m).Nodup) :
    (if k.1 = u then mget m k 0 else 0) ≤ sumFor m u ∧
    sumFor (m.filter fun p => if p.1 = k then false else true) u
      = sumFor m u - (if k.1 = u then mget m k 0 else 0) := by
  induction m with
  | nil => simp [sumFor, mget]
  | cons a m ih =>
    have hnd' : (mkeys m).Nodup := by
      rw [mkeys, List.map_cons] at hnd
      exact (List.nodup_cons.mp hnd).2
    have hnotin : a.1 ∉ mkeys m := by
      rw [mkeys, List.map_cons] at hnd
      exact (List.nodup_cons.mp hnd).1
    obtain ⟨ihle, iheq⟩ := ih hnd'
    by_cases hak : a.1 = k
    · have hfm : m.filter (fun p => if p.1 = k then false else true) = m := by
        apply List.filter_eq_self.mpr
        intro p hp
        have hpk : p.1 ≠ k := by
          intro hpk
          exact hnotin (hak ▸ hpk ▸ List.mem_map_of_mem Prod.fst hp)
        simp [hpk]
      have hcond : (if a.1 = k then false else true) = false := by rw [if_pos hak]
      rw [List.filter_cons, hcond, if_neg Bool.false_ne_true, hfm, sumFor_cons,
        mget_cons, if_pos hak.symm, hak]
      by_cases hu : k.1 = u
      · rw [if_pos hu]
        exact ⟨Nat.le_add_right _ _, (Nat.add_sub_cancel_left _ _).symm⟩
      · rw [if_neg hu]
        exact ⟨Nat.zero_le _, by omega⟩
    · have hka : ¬ k = a.1 := fun hk => hak hk.symm
      have hcond : (if a.1 = k then false else true) = true := by rw [if_neg hak]
      rw [List.filter_cons, hcond, if_pos rfl, sumFor_cons, sumFor_cons,
        mget_cons, if_neg hka, iheq]
      constructor
      · exact Nat.le_trans ihle (Nat.le_add_left _ _)
      · rw [Nat.add_sub_assoc ihle]

theorem sumFor_mset (m : List ((Nat × Nat) × Nat)) (k : Nat × Nat) (v u : Nat)
    (hnd : (mkeys m).Nodup) :
    sumFor (mset m k v) u
      = (sumFor m u - (if k.1 = u then mget m k 0 else 0)) +
        (if k.1 = u then v else 0) := by
  rw [mset, sumFor_cons, (sumFor_filter_erase m k u hnd).2, Nat.add_comm]

theorem mget_le_sumFor (m : List ((Nat × Nat) × Nat)) (u d : Nat)
    (hnd : (mkeys m).Nodup) : mget m (u, d) 0 ≤ sumFor m u := by
  have h := (sumFor_filter_erase m (u, d) u hnd).1
  rwa [if_pos rfl] at h

/-! ## The rating-aggregation invariant (claims C2, C10) -/

theorem fpRatingInv_init : FPRatingInv fpInit :=
  ⟨List.nodup_nil, fun _ => rfl⟩

theorem fpRatingInv_apply (s : FPState) (op : FPOp) (h : FPRatingInv s) :
    FPRatingInv (fpApply s op) := by
  obtain ⟨hnd, hsum⟩ := h
  cases op with
  | reg u c =>
    show FPRatingInv (register_user s u c).2
    unfold register_user
    split
    · exact ⟨hnd, hsum⟩
    · split
      · exact ⟨hnd, hsum⟩
      · exact ⟨hnd, hsum⟩
  | store u d hh =>
    show FPRatingInv (store_prediction s u d hh).2
    unfold store_prediction
    split
    · exact ⟨hnd, hsum⟩
    · split
      · exact ⟨hnd, hsum⟩
      · split
        · exact ⟨hnd, hsum⟩
        · exact ⟨hnd, hsum⟩
  | rate u d v =>
    show FPRatingInv (rate_prediction s u d v).2
    unfold rate_prediction
    split
    · exact ⟨hnd, hsum⟩
    · split
      · exact ⟨hnd, hsum⟩
      · split
        · next h0 =>
          refine ⟨mkeys_mset_nodup _ _ _ hnd, fun u' => ?_⟩
          by_cases hu : u' = u
          · subst hu
            rw [mget_mset_self, sumFor_mset _ _ _ _ hnd, hsum u',
              if_pos rfl, if_pos rfl, h0, Nat.sub_zero]
          · have hu' : ¬ ((u, d).1 = u') := fun hx => hu hx.symm
            rw [mget_mset_ne _ _ _ _ _ hu, sumFor_mset _ _ _ _ hnd, hsum u',
              if_neg hu', if_neg hu', Nat.sub_zero, Nat.add_zero]
        · next h0 =>
          refine ⟨mkeys_mset_nodup _ _ _ hnd, fun u' => ?_⟩
          by_cases hu : u' = u
          · subst hu
            rw [mget_mset_self, sumFor_mset _ _ _ _ hnd, hsum u',
              if_pos rfl, if_pos rfl]
          · have hu' : ¬ ((u, d).1 = u') := fun hx => hu hx.symm
            rw [mget_mset_ne _ _ _ _ _ hu, sumFor_mset _ _ _ _ hnd, hsum u',
              if_neg hu', if_neg hu', Nat.sub_zero, Nat.add_zero]

theorem fpRatingInv_run (tr : List FPOp) : ∀ s, FPRatingInv s → FPRatingInv (fpRun s tr) := by
  induction tr with
  | nil => exact fun s h => h
  | cons op tr ih => exact fun s h => ih _ (fpRatingInv_apply s op h)

/-- C2: in every reachable state of `FarcasterPredictions`, each owner's
stored `rating_sum` equals the sum, over all (owner, date) keys, of the
currently stored rating value for that key; and every operation
(successful or failing) preserves this invariant. -/
theorem rating_sum_matches_stored_ratings (tr : List FPOp) :
    (∀ u, mget (fpRun fpInit tr).rating_sum u 0 = sumFor (fpRun fpInit tr).ratings u) ∧
    (∀ s : FPState, FPRatingInv s → ∀ op : FPOp, FPRatingInv (fpApply s op)) :=
  ⟨(fpRatingInv_run tr fpInit fpRatingInv_init).2,
   fun s hs op => fpRatingInv_apply s op hs⟩

/-- Witness for C2 on a concrete three-call trace. -/
theorem rating_sum_matches_stored_ratings_witness :
    mget (fpRun fpInit [FPOp.reg 1 7, FPOp.store 1 20 9, FPOp.rate 1 20 4]).rating_sum 1 0
      = sumFor (fpRun fpInit [FPOp.reg 1 7, FPOp.store 1 20 9, FPOp.rate 1 20 4]).ratings 1 ∧
    FPRatingInv (fpApply fpInit (FPOp.rate 1 2 3)) :=
  ⟨(rating_sum_matches_stored_ratings [FPOp.reg 1 7, FPOp.store 1 20 9, FPOp.rate 1 20 4]).1 1,
   (rating_sum_matches_stored_ratings []).2 fpInit ⟨List.nodup_nil, fun _ => rfl⟩ (FPOp.rate 1 2 3)⟩

/-- C10: in every reachable state, an owner's stored `rating_sum` is at
least the stored rating of any single (owner, date) key, so the unsigned
subtraction `rating_sum - previous` in the update branch of
`rate_prediction` is exact and can never underflow. -/
theorem rating_sub_no_underflow (tr : List FPOp) (u d : Nat) :
    mget (fpRun fpInit tr).ratings (u, d) 0 ≤ mget (fpRun fpInit tr).rating_sum u 0 ∧
    mget (fpRun fpInit tr).rating_sum u 0 - mget (fpRun fpInit tr).ratings (u, d) 0
        + mget (fpRun fpInit tr).ratings (u, d) 0
      = mget (fpRun fpInit tr).rating_sum u 0 := by
  have h := fpRatingInv_run tr fpInit fpRatingInv_init
  have hle : mget (fpRun fpInit tr).ratings (u, d) 0
      ≤ mget (fpRun fpInit tr).rating_sum u 0 := by
    rw [h.2 u]
    exact mget_le_sumFor _ u d h.1
  exact ⟨hle, Nat.sub_add_cancel hle⟩

/-! ## Rating sequences (claim C1) -/

theorem rate_prediction_new (s : FPState) (u d v : Nat) (hv : v ≤ 5)
    (hex : mget s.prediction_exists (u, d) false = true)
    (h0 : mget s.ratings (u, d) 0 = 0) :
    (rate_prediction s u d v).2 = { s with
      ratings := mset s.ratings (u, d) v,
      total_ratings := mset s.total_ratings u (mget s.total_ratings u 0 + 1),
      rating_sum := mset s.rating_sum u (mget s.rating_sum u 0 + v) } := by
  have hv' : ¬ (v > 5) := by omega
  simp [rate_prediction, hv', hex, h0]

theorem rate_prediction_update (s : FPState) (u d v : Nat) (hv : v ≤ 5)
    (hex : mget s.prediction_exists (u, d) false = true)
    (h0 : ¬ (mget s.ratings (u, d) 0 = 0)) :
    (rate_prediction s u d v).2 = { s with
      ratings := mset s.ratings (u, d) v,
      rating_sum := mset s.rating_sum u
        (mget s.rating_sum u 0 - mget s.ratings (u, d) 0 + v) } := by
  have hv' : ¬ (v > 5) := by omega
  simp [rate_prediction, hv', hex, h0]

theorem rate_preserves_exists (s : FPState) (u d v u' d' : Nat) :
    mget ((rate_prediction s u d v).2).prediction_exists (u', d') false
      = mget s.prediction_exists (u', d') false := by
  unfold rate_prediction
  split
  · rfl
  · split
    · rfl
    · split
      · rfl
      · rfl

theorem rateSeq_final (u d vlast : Nat) (vs : List Nat) : ∀ s : FPState,
    mget s.prediction_exists (u, d) false = true →
    (∀ v ∈ vs, v ≤ 5) → vlast ≤ 5 →
    mget (rateSeq s u d (vs ++ [vlast])).ratings (u, d) 0 = vlast := by
  induction vs with
  | nil =>
    intro s hex _ hv
    show mget ((rate_prediction s u d vlast).2).ratings (u, d) 0 = vlast
    by_cases h0 : mget s.ratings (u, d) 0 = 0
    · rw [rate_prediction_new s u d vlast hv hex h0]
      exact mget_mset_self s.ratings (u, d) vlast 0
    · rw [rate_prediction_update s u d vlast hv hex h0]
      exact mget_mset_self s.ratings (u, d) vlast 0
  | cons v vs ih =>
    intro s hex hall hv
    have hv5 : v ≤ 5 := hall v (List.mem_cons_self _ _)
    show mget (rateSeq ((rate_prediction s u d v).2) u d (vs ++ [vlast])).ratings
        (u, d) 0 = vlast
    apply ih
    · rw [rate_preserves_exists]
      exact hex
    · exact fun w hw => hall w (List.mem_cons_of_mem _ hw)
    · exact hv

theorem rateSeq_update_count (u d : Nat) (vs : List Nat) : ∀ s : FPState,
    mget s.prediction_exists (u, d) false = true →
    mget s.ratings (u, d) 0 ≠ 0 →
    (∀ v ∈ vs, v ≤ 5) →
    (∀ v ∈ vs.dropLast, v ≠ 0) →
    (rateSeq s u d vs).total_ratings = s.total_ratings := by
  induction vs with
  | nil => exact fun s _ _ _ _ => rfl
  | cons v vs ih =>
    intro s hex h0 hall hnz
    have hv5 : v ≤ 5 := hall v (List.mem_cons_self _ _)
    show (rateSeq ((rate_prediction s u d v).2) u d vs).total_ratings
        = s.total_ratings
    rw [rate_prediction_update s u d v hv5 hex h0]
    cases vs with
    | nil => rfl
    | cons w ws =>
      have hvnz : v ≠ 0 := hnz v (List.mem_cons_self _ _)
      rw [ih _ ?_ ?_ ?_ ?_]
      · exact hex
      · show mget (mset s.ratings (u, d) v) (u, d) 0 ≠ 0
        rw [mget_mset_self]
        exact hvnz
      · exact fun w' hw' => hall w' (List.mem_cons_of_mem _ hw')
      · exact fun w' hw' => hnz w' (List.mem_cons_of_mem _ hw')

/-- C1 (amended): with a registered prediction at (owner, date) and all
values at most 5, a rate sequence with values `vs ++ [vlast]` always
leaves the stored rating equal to the last value; and when the key was
unrated beforehand (stored rating 0) and every value before the last is
nonzero, the owner's `total_ratings` count increases by exactly 1 across
the whole sequence. -/
theorem rate_sequence_final_rating_and_count (s : FPState) (u d vlast : Nat)
    (vs : List Nat)
    (hex : mget s.prediction_exists (u, d) false = true)
    (hall : ∀ v ∈ vs, v ≤ 5) (hlast : vlast ≤ 5) :
    mget (rateSeq s u d (vs ++ [vlast])).ratings (u, d) 0 = vlast ∧
    (mget s.ratings (u, d) 0 = 0 → (∀ v ∈ vs, v ≠ 0) →
      mget (rateSeq s u d (vs ++ [vlast])).total_ratings u 0
        = mget s.total_ratings u 0 + 1) := by
  constructor
  · exact rateSeq_final u d vlast vs s hex hall hlast
  · intro h0 hnz
    cases vs with
    | nil =>
      show mget ((rate_prediction s u d vlast).2).total_ratings u 0 = _
      rw [rate_prediction_new s u d vlast hlast hex h0]
      show mget (mset s.total_ratings u (mget s.total_ratings u 0 + 1)) u 0 = _
      rw [mget_mset_self]
    | cons v vs' =>
      have hv5 : v ≤ 5 := hall v (List.mem_cons_self _ _)
      have hvnz : v ≠ 0 := hnz v (List.mem_cons_self _ _)
      show mget (rateSeq ((rate_prediction s u d v).2) u d
          (vs' ++ [vlast])).total_ratings u 0 = _
      rw [rate_prediction_new s u d v hv5 hex h0]
      rw [rateSeq_update_count u d (vs' ++ [vlast]) _ ?_ ?_ ?_ ?_]
      · show mget (mset s.total_ratings u (mget s.total_ratings u 0 + 1)) u 0 = _
        rw [mget_mset_self]
      · exact hex
      · show mget (mset s.ratings (u, d) v) (u, d) 0 ≠ 0
        rw [mget_mset_self]
        exact hvnz
      · intro w hw
        rcases List.mem_append.mp hw with hw' | hw'
        · exact hall w (List.mem_cons_of_mem _ hw')
        · rw [List.mem_singleton.mp hw']
          exact hlast
      · intro w hw
        rw [List.dropLast_concat] at hw
        exact hnz w (List.mem_cons_of_mem _ hw)

/-- Witness for C1 (amended) on the concrete sequence 3, 4. -/
theorem rate_sequence_final_rating_and_count_witness :
    mget (rateSeq (store_prediction (register_user fpInit 1 7).2 1 20 9).2
        1 20 [3, 4]).ratings (1, 20) 0 = 4 ∧
    mget (rateSeq (store_prediction (register_user fpInit 1 7).2 1 20 9).2
        1 20 [3, 4]).total_ratings 1 0
      = mget ((store_prediction (register_user fpInit 1 7).2 1 20 9).2).total_ratings 1 0
        + 1 := by
  have h := rate_sequence_final_rating_and_count
    (store_prediction (register_user fpInit 1 7).2 1 20 9).2 1 20 4 [3]
    (by decide) (by decide) (by decide)
  exact ⟨h.1, h.2 (by decide) (by decide)⟩

/-- C1 counterexample: from an unrated registered prediction, the rate
sequence 5, 0, 0 (first value nonzero, all values at most 5) increases
the owner's `total_ratings` by 2, not by exactly 1 as the claim states. -/
theorem rate_sequence_count_counterexample :
    mget ((store_prediction (register_user fpInit 1 7).2 1 20 9).2).prediction_exists
        (1, 20) false = true ∧
    (∀ v ∈ [5, 0, 0], v ≤ 5) ∧
    mget (rateSeq (store_prediction (register_user fpInit 1 7).2 1 20 9).2
        1 20 [5, 0, 0]).total_ratings 1 0
      = mget ((store_prediction (register_user fpInit 1 7).2 1 20 9).2).total_ratings 1 0
        + 2 ∧
    ¬ (mget (rateSeq (store_prediction (register_user fpInit 1 7).2 1 20 9).2
        1 20 [5, 0, 0]).total_ratings 1 0
      = mget ((store_prediction (register_user fpInit 1 7).2 1 20 9).2).total_ratings 1 0
        + 1) := by
  decide

/-! ## Error atomicity (claim C5) -/

/-- C5: every mutating operation of both contracts — `register_chart`,
`mark_as_verified`, `register_user`, `store_prediction`,
`rate_prediction` — returns the state unchanged whenever it returns an
error: every error path of the source returns before any write. -/
theorem error_rollback :
    (∀ (s : CRState) (id : String) (h u : Nat) (zk : Bool) (now : Nat)
       (e : ChartRegistryError),
       (register_chart s id h u zk now).1 = .error e →
       (register_chart s id h u zk now).2 = s) ∧
    (∀ (s : CRState) (id : String) (e : ChartRegistryError),
       (mark_as_verified s id).1 = .error e → (mark_as_verified s id).2 = s) ∧
    (∀ (s : FPState) (u c : Nat) (e : String),
       (register_user s u c).1 = .error e → (register_user s u c).2 = s) ∧
    (∀ (s : FPState) (u d h : Nat) (e : String),
       (store_prediction s u d h).1 = .error e → (store_prediction s u d h).2 = s) ∧
    (∀ (s : FPState) (u d v : Nat) (e : String),
       (rate_prediction s u d v).1 = .error e → (rate_prediction s u d v).2 = s) := by
  refine ⟨?_, ?_, ?_, ?_, ?_⟩
  · intro s id h u zk now e
    unfold register_chart
    split
    · exact fun _ => rfl
    · split
      · exact fun _ => rfl
      · split
        · exact fun _ => rfl
        · intro hE
          simp at hE
  · intro s id e
    unfold mark_as_verified
    split
    · exact fun _ => rfl
    · intro hE
      simp at hE
  · intro s u c e
    unfold register_user
    split
    · exact fun _ => rfl
    · split
      · exact fun _ => rfl
      · intro hE
        simp at hE
  · intro s u d h e
    unfold store_prediction
    split
    · exact fun _ => rfl
    · split
      · exact fun _ => rfl
      · split
        · exact fun _ => rfl
        · intro hE
          simp at hE
  · intro s u d v e
    unfold rate_prediction
    split
    · exact fun _ => rfl
    · split
      · exact fun _ => rfl
      · split
        · intro hE
          simp at hE
        · intro hE
          simp at hE

/-- Witness for C5 at concrete failing calls of each kind. -/
theorem error_rollback_witness :
    (register_chart crInit "c1" 0 1 false 5).2 = crInit ∧
    (mark_as_verified crInit "c1").2 = crInit ∧
    (register_user fpInit 1 0).2 = fpInit ∧
    (store_prediction fpInit 1 2 3).2 = fpInit ∧
    (rate_prediction fpInit 1 2 9).2 = fpInit :=
  ⟨error_rollback.1 crInit "c1" 0 1 false 5 .invalidChartHash rfl,
   error_rollback.2.1 crInit "c1" .chartDoesNotExist rfl,
   error_rollback.2.2.1 fpInit 1 0 "InvalidCommitment" rfl,
   error_rollback.2.2.2.1 fpInit 1 2 3 "UserNotRegistered" rfl,
   error_rollback.2.2.2.2 fpInit 1 2 9 "InvalidRating" rfl⟩

/-! ## ChartRegistry trace lemmas (claims C3, C4, C8) -/

theorem charts_default_of_neverRegistered (tr : List CROp) : ∀ (s : CRState) (id : String),
    mget s.charts id defaultChart = defaultChart →
    neverRegisteredIn s tr id = true →
    mget (crRun s tr).charts id defaultChart = defaultChart := by
  induction tr with
  | nil => exact fun s id h _ => h
  | cons op tr ih =>
    intro s id h hnr
    rw [neverRegisteredIn, Bool.and_eq_true] at hnr
    obtain ⟨h1, h2⟩ := hnr
    show mget (crRun (crApply s op) tr).charts id defaultChart = defaultChart
    apply ih (crApply s op) id ?_ h2
    cases op with
    | initOp => exact h
    | mark id' =>
      show mget ((mark_as_verified s id').2).charts id defaultChart = defaultChart
      unfold mark_as_verified
      split
      · exact h
      · next hts =>
        by_cases hid : id = id'
        · subst hid
          rw [h] at hts
          simp [defaultChart] at hts
        · show mget (mset s.charts id'
              { mget s.charts id' defaultChart with zk_verified := true })
              id defaultChart = defaultChart
          rw [mget_mset_ne _ _ _ _ _ hid]
          exact h
    | register id' hh uu zz nn =>
      show mget ((register_chart s id' hh uu zz nn).2).charts id defaultChart = defaultChart
      by_cases hid : id' = id
      · subst hid
        have hnok : (register_chart s id' hh uu zz nn).1.isOk = false := by
          simpa [regChartSuccessFor] using h1
        revert hnok
        unfold register_chart
        split
        · exact fun _ => h
        · split
          · exact fun _ => h
          · split
            · exact fun _ => h
            · intro hx
              simp [Except.isOk, Except.toBool] at hx
      · unfold register_chart
        split
        · exact h
        · split
          · exact h
          · split
            · exact h
            · show mget (mset s.charts id' ⟨hh, uu, nn, zz, id'⟩) id defaultChart
                = defaultChart
              rw [mget_mset_ne _ _ _ _ _ (fun hx => hid hx.symm)]
              exact h

theorem crGoodInv_apply (s : CRState) (op : CROp)
    (hs : ∀ id, mget s.charts id defaultChart = defaultChart ∨
      (mget s.charts id defaultChart).timestamp ≠ 0)
    (hop : goodOp op = true) :
    ∀ id, mget (crApply s op).charts id defaultChart = defaultChart ∨
      (mget (crApply s op).charts id defaultChart).timestamp ≠ 0 := by
  intro id
  cases op with
  | initOp => exact hs id
  | register id' hh uu zz nn =>
    have hnn : nn ≠ 0 := by simpa [goodOp] using hop
    show mget ((register_chart s id' hh uu zz nn).2).charts id defaultChart = defaultChart ∨
      (mget ((register_chart s id' hh uu zz nn).2).charts id defaultChart).timestamp ≠ 0
    unfold register_chart
    split
    · exact hs id
    · split
      · exact hs id
      · split
        · exact hs id
        · by_cases hid : id = id'
          · subst hid
            right
            show (mget (mset s.charts id ⟨hh, uu, nn, zz, id⟩) id defaultChart).timestamp ≠ 0
            rw [mget_mset_self]
            exact hnn
          · show mget (mset s.charts id' ⟨hh, uu, nn, zz, id'⟩) id defaultChart
                = defaultChart ∨
              (mget (mset s.charts id' ⟨hh, uu, nn, zz, id'⟩) id defaultChart).timestamp ≠ 0
            rw [mget_mset_ne _ _ _ _ _ hid]
            exact hs id
  | mark id' =>
    show mget ((mark_as_verified s id').2).charts id defaultChart = defaultChart ∨
      (mget ((mark_as_verified s id').2).charts id defaultChart).timestamp ≠ 0
    unfold mark_as_verified
    split
    · exact hs id
    · next hts =>
      by_cases hid : id = id'
      · subst hid
        right
        show (mget (mset s.charts id
            { mget s.charts id defaultChart with zk_verified := true })
            id defaultChart).timestamp ≠ 0
        rw [mget_mset_self]
        exact hts
      · show mget (mset s.charts id'
              { mget s.charts id' defaultChart with zk_verified := true })
              id defaultChart = defaultChart ∨
          (mget (mset s.charts id'
              { mget s.charts id' defaultChart with zk_verified := true })
              id defaultChart).timestamp ≠ 0
        rw [mget_mset_ne _ _ _ _ _ hid]
        exact hs id

theorem crGoodInv_run (tr : List CROp) : ∀ s : CRState,
    (∀ id, mget s.charts id defaultChart = defaultChart ∨
      (mget s.charts id defaultChart).timestamp ≠ 0) →
    goodTrace tr = true →
    ∀ id, mget (crRun s tr).charts id defaultChart = defaultChart ∨
      (mget (crRun s tr).charts id defaultChart).timestamp ≠ 0 := by
  induction tr with
  | nil => exact fun s h _ => h
  | cons op tr ih =>
    intro s h htr
    rw [goodTrace, List.all_cons, Bool.and_eq_true] at htr
    exact ih (crApply s op) (crGoodInv_apply s op h htr.1) htr.2

theorem register_chart_ok (s : CRState) (id : String) (hh uu : Nat) (zz : Bool)
    (nn : Nat) (h0 : (mget s.charts id defaultChart).timestamp = 0)
    (hh0 : hh ≠ 0) (hu0 : uu ≠ 0) :
    register_chart s id hh uu zz nn = (.ok (), { s with
      charts := mset s.charts id ⟨hh, uu, nn, zz, id⟩,
      user_charts := mset s.user_charts uu (mget s.user_charts uu [] ++ [id]),
      total_charts := s.total_charts + 1 }) := by
  have hc1 : ¬ ((mget s.charts id defaultChart).timestamp ≠ 0) := fun hx => hx h0
  unfold register_chart
  rw [if_neg hc1, if_neg hh0, if_neg hu0]

theorem register_chart_exists_err (s : CRState) (id : String) (hh uu : Nat)
    (zz : Bool) (nn : Nat)
    (hts : (mget s.charts id defaultChart).timestamp ≠ 0) :
    register_chart s id hh uu zz nn = (.error .chartAlreadyExists, s) := by
  simp [register_chart, hts]

theorem mark_as_verified_ok (s : CRState) (id : String)
    (hts : (mget s.charts id defaultChart).timestamp ≠ 0) :
    mark_as_verified s id = (.ok (), { s with
      charts := mset s.charts id
        { mget s.charts id defaultChart with zk_verified := true } }) := by
  simp [mark_as_verified, hts]

/-- C3: `verify_chart` is a total read returning whether the hash stored
for `id` equals the supplied hash, comparing against the all-zero record
when `id` has no live record; consequently, on any reachable state in
which `id` was never successfully registered it returns `true` exactly
when the supplied hash is the zero hash. -/
theorem verify_chart_spec (s : CRState) (id : String) (hsh : Nat) (tr : List CROp) :
    verify_chart s id hsh = ((mget s.charts id defaultChart).chart_hash == hsh) ∧
    (neverRegisteredIn crInit tr id = true →
      (verify_chart (crRun crInit tr) id hsh = true ↔ hsh = 0)) := by
  refine ⟨rfl, fun hnr => ?_⟩
  have hd := charts_default_of_neverRegistered tr crInit id rfl hnr
  rw [verify_chart, hd]
  show ((0 : Nat) == hsh) = true ↔ hsh = 0
  constructor
  · intro hbe
    exact (beq_iff_eq.mp hbe).symm
  · intro hz
    subst hz
    rfl

/-- Witness for C3: an id different from the one registered in the trace
verifies only against the zero hash. -/
theorem verify_chart_spec_witness :
    verify_chart (crRun crInit [CROp.register "x" 1 1 false 1]) "y" 0 = true :=
  ((verify_chart_spec (crRun crInit [CROp.register "x" 1 1 false 1]) "y" 0
    [CROp.register "x" 1 1 false 1]).2 (by decide)).mpr rfl

/-- C4: on an id never registered before, the first `register_chart`
with nonzero hash and owner (under a nonzero host timestamp) succeeds
and stores the record (hash, owner, timestamp, flag, id); any second
`register_chart` on the same id, with arbitrary arguments, fails with
`ChartAlreadyExists` and leaves the stored record unchanged. -/
theorem register_chart_unique (tr : List CROp) (id : String) (hsh u : Nat)
    (v : Bool) (now h2 u2 : Nat) (v2 : Bool) (now2 : Nat)
    (hnr : neverRegisteredIn crInit tr id = true)
    (hh : hsh ≠ 0) (hu : u ≠ 0) (hnow : now ≠ 0) :
    (register_chart (crRun crInit tr) id hsh u v now).1 = .ok () ∧
    mget ((register_chart (crRun crInit tr) id hsh u v now).2).charts id defaultChart
      = ⟨hsh, u, now, v, id⟩ ∧
    (register_chart ((register_chart (crRun crInit tr) id hsh u v now).2)
      id h2 u2 v2 now2).1 = .error .chartAlreadyExists ∧
    (register_chart ((register_chart (crRun crInit tr) id hsh u v now).2)
      id h2 u2 v2 now2).2 = (register_chart (crRun crInit tr) id hsh u v now).2 := by
  have hd := charts_default_of_neverRegistered tr crInit id rfl hnr
  have hstep := register_chart_ok (crRun crInit tr) id hsh u v now
    (by rw [hd]; rfl) hh hu
  have hget : mget ((register_chart (crRun crInit tr) id hsh u v now).2).charts
      id defaultChart = ⟨hsh, u, now, v, id⟩ := by
    rw [hstep]
    exact mget_mset_self _ _ _ _
  have hsecond := register_chart_exists_err
    ((register_chart (crRun crInit tr) id hsh u v now).2) id h2 u2 v2 now2
    (by rw [hget]; exact hnow)
  refine ⟨?_, hget, ?_, ?_⟩
  · rw [hstep]
  · rw [hsecond]
  · rw [hsecond]

/-- Witness for C4 on a concrete first and second registration. -/
theorem register_chart_unique_witness :
    (register_chart (crRun crInit []) "a" 3 4 true 7).1 = .ok () ∧
    (register_chart ((register_chart (crRun crInit []) "a" 3 4 true 7).2)
      "a" 0 0 false 0).1 = .error .chartAlreadyExists :=
  ⟨(register_chart_unique [] "a" 3 4 true 7 0 0 false 0 rfl (by decide) (by decide)
      (by decide)).1,
   (register_chart_unique [] "a" 3 4 true 7 0 0 false 0 rfl (by decide) (by decide)
      (by decide)).2.2.1⟩

/-- C8: under a well-behaved host clock, `mark_as_verified` fails
`ChartDoesNotExist` on an id with no live record and leaves the state
unchanged; on a live id it succeeds and sets `zk_verified`, and calling
it again still succeeds with the flag staying `true`; and no operation
ever changes a stored `zk_verified` flag from `true` back to `false`. -/
theorem mark_verified_monotonic (tr : List CROp) (id : String) (op : CROp)
    (htr : goodTrace tr = true) (hop : goodOp op = true) :
    (mget (crRun crInit tr).charts id defaultChart = defaultChart →
      (mark_as_verified (crRun crInit tr) id).1 = .error .chartDoesNotExist ∧
      (mark_as_verified (crRun crInit tr) id).2 = crRun crInit tr) ∧
    (mget (crRun crInit tr).charts id defaultChart ≠ defaultChart →
      (mark_as_verified (crRun crInit tr) id).1 = .ok () ∧
      (mget ((mark_as_verified (crRun crInit tr) id).2).charts id
        defaultChart).zk_verified = true ∧
      (mark_as_verified ((mark_as_verified (crRun crInit tr) id).2) id).1 = .ok () ∧
      (mget ((mark_as_verified ((mark_as_verified (crRun crInit tr) id).2) id).2).charts
        id defaultChart).zk_verified = true) ∧
    ((mget (crRun crInit tr).charts id defaultChart).zk_verified = true →
      (mget (crApply (crRun crInit tr) op).charts id defaultChart).zk_verified = true) := by
  have hinv := crGoodInv_run tr crInit (fun _ => Or.inl rfl) htr id
  refine ⟨fun hd => ?_, fun hne => ?_, fun hzk => ?_⟩
  · constructor
    · rw [mark_as_verified, hd]
      simp [defaultChart]
    · rw [mark_as_verified, hd]
      simp [defaultChart]
  · have hts : (mget (crRun crInit tr).charts id defaultChart).timestamp ≠ 0 := by
      rcases hinv with hd | ht
      · exact absurd hd hne
      · exact ht
    have hm1 := mark_as_verified_ok (crRun crInit tr) id hts
    have hget1 : mget ((mark_as_verified (crRun crInit tr) id).2).charts id defaultChart
        = { mget (crRun crInit tr).charts id defaultChart with zk_verified := true } := by
      rw [hm1]
      exact mget_mset_self _ _ _ _
    have hts2 : (mget ((mark_as_verified (crRun crInit tr) id).2).charts id
        defaultChart).timestamp ≠ 0 := by
      rw [hget1]
      exact hts
    have hm2 := mark_as_verified_ok ((mark_as_verified (crRun crInit tr) id).2) id hts2
    refine ⟨by rw [hm1], by rw [hget1], by rw [hm2], ?_⟩
    rw [hm2]
    show (mget (mset ((mark_as_verified (crRun crInit tr) id).2).charts id
      { mget ((mark_as_verified (crRun crInit tr) id).2).charts id defaultChart with
        zk_verified := true }) id defaultChart).zk_verified = true
    rw [mget_mset_self]
  · have hts : (mget (crRun crInit tr).charts id defaultChart).timestamp ≠ 0 := by
      rcases hinv with hd | ht
      · rw [hd] at hzk
        simp [defaultChart] at hzk
      · exact ht
    cases op with
    | initOp => exact hzk
    | register id2 hh2 uu2 zz2 nn2 =>
      show (mget ((register_chart (crRun crInit tr) id2 hh2 uu2 zz2 nn2).2).charts
        id defaultChart).zk_verified = true
      by_cases hid : id2 = id
      · subst hid
        rw [register_chart_exists_err (crRun crInit tr) id2 hh2 uu2 zz2 nn2 hts]
        exact hzk
      · unfold register_chart
        split
        · exact hzk
        · split
          · exact hzk
          · split
            · exact hzk
            · show (mget (mset (crRun crInit tr).charts id2 ⟨hh2, uu2, nn2, zz2, id2⟩)
                id defaultChart).zk_verified = true
              rw [mget_mset_ne _ _ _ _ _ (fun hx => hid hx.symm)]
              exact hzk
    | mark id2 =>
      show (mget ((mark_as_verified (crRun crInit tr) id2).2).charts
        id defaultChart).zk_verified = true
      by_cases hid : id2 = id
      · subst hid
        rw [mark_as_verified_ok (crRun crInit tr) id2 hts]
        show (mget (mset (crRun crInit tr).charts id2
          { mget (crRun crInit tr).charts id2 defaultChart with zk_verified := true })
          id2 defaultChart).zk_verified = true
        rw [mget_mset_self]
      · unfold mark_as_verified
        split
        · exact hzk
        · show (mget (mset (crRun crInit tr).charts id2
            { mget (crRun crInit tr).charts id2 defaultChart with zk_verified := true })
            id defaultChart).zk_verified = true
          rw [mget_mset_ne _ _ _ _ _ (fun hx => hid hx.symm)]
          exact hzk

/-- Witness for C8 on a concrete trace: registering then marking. -/
theorem mark_verified_monotonic_witness :
    (mark_as_verified (crRun crInit [CROp.register "a" 3 4 false 7]) "a").1 = .ok () ∧
    (mark_as_verified (crRun crInit [CROp.register "a" 3 4 false 7]) "b").1
      = .error .chartDoesNotExist :=
  ⟨((mark_verified_monotonic [CROp.register "a" 3 4 false 7] "a" CROp.initOp
      (by decide) (by decide)).2.1 (by decide)).1,
   ((mark_verified_monotonic [CROp.register "a" 3 4 false 7] "b" CROp.initOp
      (by decide) (by decide)).1 (by decide)).1⟩

/-! ## Prediction gating (claim C9) -/

theorem register_user_ok (s : FPState) (u c : Nat) (hc : c ≠ 0)
    (hreg : mget s.user_has_data u false = false) :
    register_user s u c = (.ok (), { s with
      user_commitments := mset s.user_commitments u c,
      user_has_data := mset s.user_has_data u true,
      total_users := s.total_users + 1 }) := by
  unfold register_user
  rw [if_neg hc, hreg, if_neg Bool.false_ne_true]

theorem store_prediction_unreg_err (s : FPState) (u d h : Nat)
    (hreg : mget s.user_has_data u false = false) :
    store_prediction s u d h = (.error "UserNotRegistered", s) := by
  unfold store_prediction
  rw [hreg, if_pos (show (!false) = true from rfl)]

theorem store_prediction_ok (s : FPState) (u d h : Nat)
    (hreg : mget s.user_has_data u false = true) (hh : h ≠ 0)
    (hex : mget s.prediction_exists (u, d) false = false) :
    store_prediction s u d h = (.ok (), { s with
      predictions := mset s.predictions (u, d) h,
      prediction_exists := mset s.prediction_exists (u, d) true,
      total_predictions :=
        mset s.total_predictions u (mget s.total_predictions u 0 + 1),
      global_predictions := s.global_predictions + 1 }) := by
  unfold store_prediction
  rw [hreg, if_neg (by decide : ¬ ((!true) = true)), if_neg hh, hex,
    if_neg Bool.false_ne_true]

theorem store_prediction_exists_err (s : FPState) (u d h : Nat)
    (hreg : mget s.user_has_data u false = true) (hh : h ≠ 0)
    (hex : mget s.prediction_exists (u, d) false = true) :
    store_prediction s u d h = (.error "PredictionAlreadyExists", s) := by
  unfold store_prediction
  rw [hreg, if_neg (by decide : ¬ ((!true) = true)), if_neg hh, hex,
    if_pos (show true = true from rfl)]

theorem store_prediction_hash_err (s : FPState) (u d : Nat)
    (hreg : mget s.user_has_data u false = true) :
    store_prediction s u d 0 = (.error "InvalidPredictionHash", s) := by
  unfold store_prediction
  rw [hreg, if_neg (by decide : ¬ ((!true) = true)),
    if_pos (show (0 : Nat) = 0 from rfl)]

theorem owner_unregistered_invariant (tr : List FPOp) : ∀ (s : FPState) (u : Nat),
    mget s.user_has_data u false = false →
    (∀ d, mget s.prediction_exists (u, d) false = false) →
    neverRegOwnerIn s tr u = true →
    mget (fpRun s tr).user_has_data u false = false ∧
    ∀ d, mget (fpRun s tr).prediction_exists (u, d) false = false := by
  induction tr with
  | nil => exact fun s u h1 h2 _ => ⟨h1, h2⟩
  | cons op tr ih =>
    intro s u h1 h2 hnr
    rw [neverRegOwnerIn, Bool.and_eq_true] at hnr
    obtain ⟨hop, hnr'⟩ := hnr
    show mget (fpRun (fpApply s op) tr).user_has_data u false = false ∧
      ∀ d, mget (fpRun (fpApply s op) tr).prediction_exists (u, d) false = false
    apply ih (fpApply s op) u ?_ ?_ hnr'
    · cases op with
      | reg u2 c =>
        show mget ((register_user s u2 c).2).user_has_data u false = false
        by_cases hu : u2 = u
        · subst hu
          have hnok : (register_user s u2 c).1.isOk = false := by
            simpa [regOwnerSuccessFor] using hop
          revert hnok
          unfold register_user
          split
          · exact fun _ => h1
          · split
            · exact fun _ => h1
            · intro hx
              simp [Except.isOk, Except.toBool] at hx
        · unfold register_user
          split
          · exact h1
          · split
            · exact h1
            · show mget (mset s.user_has_data u2 true) u false = false
              rw [mget_mset_ne _ _ _ _ _ (fun hx => hu hx.symm)]
              exact h1
      | store u2 d2 hh2 =>
        show mget ((store_prediction s u2 d2 hh2).2).user_has_data u false = false
        unfold store_prediction
        split
        · exact h1
        · split
          · exact h1
          · split
            · exact h1
            · exact h1
      | rate u2 d2 v2 =>
        show mget ((rate_prediction s u2 d2 v2).2).user_has_data u false = false
        unfold rate_prediction
        split
        · exact h1
        · split
          · exact h1
          · split
            · exact h1
            · exact h1
    · intro d
      cases op with
      | reg u2 c =>
        show mget ((register_user s u2 c).2).prediction_exists (u, d) false = false
        unfold register_user
        split
        · exact h2 d
        · split
          · exact h2 d
          · exact h2 d
      | store u2 d2 hh2 =>
        show mget ((store_prediction s u2 d2 hh2).2).prediction_exists (u, d) false = false
        unfold store_prediction
        split
        · exact h2 d
        · next hg =>
          split
          · exact h2 d
          · split
            · exact h2 d
            · have hu : u2 ≠ u := by
                intro he
                subst he
                rw [h1] at hg
                exact hg rfl
              show mget (mset s.prediction_exists (u2, d2) true) (u, d) false = false
              rw [mget_mset_ne _ _ _ _ _
                (fun hx => hu (congrArg Prod.fst hx).symm)]
              exact h2 d
      | rate u2 d2 v2 =>
        show mget ((rate_prediction s u2 d2 v2).2).prediction_exists (u, d) false = false
        unfold rate_prediction
        split
        · exact h2 d
        · split
          · exact h2 d
          · split
            · exact h2 d
            · exact h2 d

/-- C9 (amended): `store_prediction` fails `UserNotRegistered` for every
owner that never successfully called `register_user`; from such a state,
`register_user` with a nonzero commitment succeeds, a first
`store_prediction` with a nonzero hash succeeds, and a second
`store_prediction` for the same (owner, date) fails
`PredictionAlreadyExists` for every nonzero hash, while with hash 0 it
fails `InvalidPredictionHash` (the zero-hash check precedes the
duplicate check; the state is unchanged either way). -/
theorem store_prediction_gating (tr : List FPOp) (u c d h h2 : Nat)
    (hnr : neverRegOwnerIn fpInit tr u = true) :
    (store_prediction (fpRun fpInit tr) u d h).1 = .error "UserNotRegistered" ∧
    (c ≠ 0 →
      (register_user (fpRun fpInit tr) u c).1 = .ok () ∧
      (h ≠ 0 →
        (store_prediction ((register_user (fpRun fpInit tr) u c).2) u d h).1 = .ok () ∧
        (h2 ≠ 0 →
          (store_prediction
            ((store_prediction ((register_user (fpRun fpInit tr) u c).2) u d h).2)
            u d h2).1 = .error "PredictionAlreadyExists") ∧
        (store_prediction
          ((store_prediction ((register_user (fpRun fpInit tr) u c).2) u d h).2)
          u d 0).1 = .error "InvalidPredictionHash")) := by
  have hinv := owner_unregistered_invariant tr fpInit u rfl (fun _ => rfl) hnr
  refine ⟨?_, fun hc => ?_⟩
  · rw [store_prediction_unreg_err _ u d h hinv.1]
  · have hreg := register_user_ok (fpRun fpInit tr) u c hc hinv.1
    refine ⟨by rw [hreg], fun hh => ?_⟩
    have hreg2 : mget ((register_user (fpRun fpInit tr) u c).2).user_has_data u false
        = true := by
      rw [hreg]
      exact mget_mset_self _ _ _ _
    have hex1 : mget ((register_user (fpRun fpInit tr) u c).2).prediction_exists
        (u, d) false = false := by
      rw [hreg]
      exact hinv.2 d
    have hstore := store_prediction_ok ((register_user (fpRun fpInit tr) u c).2)
      u d h hreg2 hh hex1
    have hreg3 : mget ((store_prediction ((register_user (fpRun fpInit tr) u c).2)
        u d h).2).user_has_data u false = true := by
      rw [hstore]
      exact hreg2
    have hex2 : mget ((store_prediction ((register_user (fpRun fpInit tr) u c).2)
        u d h).2).prediction_exists (u, d) false = true := by
      rw [hstore]
      exact mget_mset_self _ _ _ _
    refine ⟨by rw [hstore], fun hh2 => ?_, ?_⟩
    · rw [store_prediction_exists_err _ u d h2 hreg3 hh2 hex2]
    · rw [store_prediction_hash_err _ u d hreg3]

/-- Witness for C9 (amended) on the empty trace. -/
theorem store_prediction_gating_witness :
    (store_prediction (fpRun fpInit []) 1 20 9).1 = .error "UserNotRegistered" ∧
    (register_user (fpRun fpInit []) 1 7).1 = .ok () ∧
    (store_prediction ((register_user (fpRun fpInit []) 1 7).2) 1 20 9).1 = .ok () ∧
    (store_prediction
      ((store_prediction ((register_user (fpRun fpInit []) 1 7).2) 1 20 9).2)
      1 20 4).1 = .error "PredictionAlreadyExists" :=
  ⟨(store_prediction_gating [] 1 7 20 9 4 rfl).1,
   ((store_prediction_gating [] 1 7 20 9 4 rfl).2 (by decide)).1,
   (((store_prediction_gating [] 1 7 20 9 4 rfl).2 (by decide)).2 (by decide)).1,
   ((((store_prediction_gating [] 1 7 20 9 4 rfl).2 (by decide)).2 (by decide)).2.1
     (by decide))⟩

/-- C9 counterexample: after registering owner 1 and storing a
prediction at date 20, a second `store_prediction` for the same key with
hash 0 fails with `InvalidPredictionHash`, not `PredictionAlreadyExists`
as the claim states for arbitrary hashes. -/
theorem store_prediction_error_order_counterexample :
    (store_prediction ((store_prediction ((register_user fpInit 1 7).2) 1 20 9).2)
      1 20 0).1 = .error "InvalidPredictionHash" ∧
    (store_prediction ((store_prediction ((register_user fpInit 1 7).2) 1 20 9).2)
      1 20 0).1 ≠ .error "PredictionAlreadyExists" := by
  constructor
  · rfl
  · intro hx
    have hx' : (Except.error "InvalidPredictionHash" : Except String Unit)
        = .error "PredictionAlreadyExists" := hx
    injection hx' with hs
    exact absurd hs (by decide)

/-! ## Proof verification (claims C6, C7) -/

theorem isEmpty_eq_false_of_ne_nil {α : Type} (l : List α) (h : l ≠ []) :
    l.isEmpty = false := by
  cases l with
  | nil => exact absurd rfl h
  | cons a l => rfl

theorem hexEncode_ne_nil (bs : List Nat) (h : bs ≠ []) : hexEncode bs ≠ [] := by
  cases bs with
  | nil => exact absurd rfl h
  | cons b bs => simp [hexEncode]

theorem verify_zk_proof_nonempty_iff (keccak256 : List Nat → List Nat)
    (c p n pos : List Nat) (hc : c ≠ []) (hp : p ≠ []) (hn : n ≠ [])
    (hpos : pos ≠ []) :
    verify_zk_proof keccak256 c p n pos = true ↔
      p = hexEncode (keccak256 (c ++ n ++
        hexEncode (keccak256 (c ++ u64_array_to_bytes pos)))) := by
  have h1 : (c.isEmpty || p.isEmpty || n.isEmpty) = false := by
    rw [isEmpty_eq_false_of_ne_nil c hc, isEmpty_eq_false_of_ne_nil p hp,
      isEmpty_eq_false_of_ne_nil n hn]
    rfl
  have h2 : pos.isEmpty = false := isEmpty_eq_false_of_ne_nil pos hpos
  unfold verify_zk_proof
  rw [h1, if_neg Bool.false_ne_true, h2, if_neg Bool.false_ne_true]
  constructor
  · intro hbe
    exact (beq_iff_eq.mp hbe).symm
  · intro he
    rw [he]
    exact beq_iff_eq.mpr rfl

/-- C6: `verify_zk_proof` returns `false` when the commitment, proof or
nonce is empty or the position list is empty; otherwise it returns
`true` exactly when the proof equals the lowercase hex encoding of
`Hash(commitment ++ nonce ++ hex(Hash(commitment ++ leBytes(positions))))`
(byte equality on the hex digests, hence case-sensitive); in particular,
for any 32-byte-output hash engine and non-empty commitment, nonce and
positions, the proof built by this two-step chain verifies. -/
theorem verify_zk_proof_spec (keccak256 : List Nat → List Nat)
    (commitment proof nonce positions : List Nat) :
    ((commitment = [] ∨ proof = [] ∨ nonce = [] ∨ positions = []) →
      verify_zk_proof keccak256 commitment proof nonce positions = false) ∧
    (commitment ≠ [] → proof ≠ [] → nonce ≠ [] → positions ≠ [] →
      (verify_zk_proof keccak256 commitment proof nonce positions = true ↔
        proof = hexEncode (keccak256 (commitment ++ nonce ++
          hexEncode (keccak256 (commitment ++ u64_array_to_bytes positions)))))) ∧
    ((∀ bs, (keccak256 bs).length = 32) →
      commitment ≠ [] → nonce ≠ [] → positions ≠ [] →
      verify_zk_proof keccak256 commitment
        (hexEncode (keccak256 (commitment ++ nonce ++
          hexEncode (keccak256 (commitment ++ u64_array_to_bytes positions)))))
        nonce positions = true) := by
  refine ⟨?_, ?_, ?_⟩
  · intro hemp
    unfold verify_zk_proof
    rcases hemp with h | h | h | h
    · rw [h]
      simp
    · rw [h]
      simp
    · rw [h]
      simp
    · rw [h]
      split
      · rfl
      · simp
  · exact verify_zk_proof_nonempty_iff keccak256 commitment proof nonce positions
  · intro h32 hc hn hpos
    have hkne : keccak256 (commitment ++ nonce ++
        hexEncode (keccak256 (commitment ++ u64_array_to_bytes positions))) ≠ [] := by
      intro hx
      have hlen := h32 (commitment ++ nonce ++
        hexEncode (keccak256 (commitment ++ u64_array_to_bytes positions)))
      rw [hx] at hlen
      simp at hlen
    exact (verify_zk_proof_nonempty_iff keccak256 commitment _ nonce positions hc
      (hexEncode_ne_nil _ hkne) hn hpos).mpr rfl

/-- Witness for C6 with a constant 32-byte stand-in hash engine. -/
theorem verify_zk_proof_spec_witness :
    verify_zk_proof (fun _ => List.replicate 32 0) [97]
      (hexEncode (List.replicate 32 0)) [98] [5] = true :=
  (verify_zk_proof_spec (fun _ => List.replicate 32 0) [97]
    (hexEncode (List.replicate 32 0)) [98] [5]).2.2 (fun _ => rfl)
    (by decide) (by decide) (by decide)

/-- C7: `verify_zk_proof_simple` returns `true` exactly when the
commitment is at least 32 bytes, the proof at least 32 bytes, the nonce
at least 16 bytes, there are at least 7 positions and every position is
at most 36000; with the four concrete cases of the spec evaluated. -/
theorem verify_zk_proof_simple_spec (commitment proof nonce positions : List Nat) :
    (verify_zk_proof_simple commitment proof nonce positions = true ↔
      (32 ≤ commitment.length ∧ 32 ≤ proof.length ∧ 16 ≤ nonce.length ∧
       7 ≤ positions.length ∧ ∀ p ∈ positions, p ≤ 36000)) ∧
    verify_zk_proof_simple (List.replicate 40 97) (List.replicate 40 98)
      (List.replicate 20 99) [100, 200, 300, 400, 500, 600, 700] = true ∧
    verify_zk_proof_simple [115, 104, 111, 114, 116] (List.replicate 40 98)
      (List.replicate 20 99) [100, 200, 300, 400, 500, 600, 700] = false ∧
    verify_zk_proof_simple (List.replicate 40 97) (List.replicate 40 98)
      (List.replicate 20 99) [100, 200, 300] = false ∧
    verify_zk_proof_simple (List.replicate 40 97) (List.replicate 40 98)
      (List.replicate 20 99) [100, 200, 300, 400, 500, 600, 99999] = false := by
  refine ⟨⟨?_, ?_⟩, by decide, by decide, by decide, by decide⟩
  · intro hv
    unfold verify_zk_proof_simple at hv
    split at hv
    · cases hv
    · next h1 =>
      split at hv
      · cases hv
      · next h2 =>
        split at hv
        · cases hv
        · next h3 =>
          split at hv
          · cases hv
          · next h4 =>
            refine ⟨by omega, by omega, by omega, by omega, ?_⟩
            intro p hp
            exact of_decide_eq_true (List.all_eq_true.mp hv p hp)
  · intro hconj
    obtain ⟨hc, hp, hn, hl, hall⟩ := hconj
    unfold verify_zk_proof_simple
    split
    · next hlt => exact absurd hc (by omega)
    · split
      · next hlt => exact absurd hp (by omega)
      · split
        · next hlt => exact absurd hn (by omega)
        · split
          · next hlt => exact absurd hl (by omega)
          · exact List.all_eq_true.mpr (fun p hp => decide_eq_true (hall p hp))

/-- Witness for C7: the iff applied at a concrete valid input. -/
theorem verify_zk_proof_simple_spec_witness :
    verify_zk_proof_simple (List.replicate 40 97) (List.replicate 40 98)
      (List.replicate 20 99) [1, 2, 3, 4, 5, 6, 7] = true :=
  (verify_zk_proof_simple_spec (List.replicate 40 97) (List.replicate 40 98)
    (List.replicate 20 99) [1, 2, 3, 4, 5, 6, 7]).1.mpr
    ⟨by decide, by decide, by decide, by decide, by decide⟩
